import Mathlib

/-!
Shallow embedding of the dual-formation procedural geometry and
animation engine of the shengdanshu scene: the progress controller
(components/Experience.tsx), the scatter and tree-spiral samplers
(utils/math.ts), the instanced ornament animator
(components/Ornaments.tsx), the ribbon strip builder
(components/Ribbons.tsx) and the foliage particle vertex shader
(components/Foliage.tsx).

JavaScript numbers are modelled as real numbers (rationals for the
purely arithmetic progress controller).  Float32Array buffers and
instance-matrix buffers are modelled as lists; the imperative per-tick
writes (setXYZ / setMatrixAt over an index loop) are modelled as folds
of functional updates over the index range, so that dependence on the
previous buffer contents is represented faithfully.
-/

noncomputable section

namespace Shengdan

/-- A three-dimensional vector of real components, modelling THREE.Vector3
and GLSL vec3. -/
structure Vec3 where
  x : ℝ
  y : ℝ
  z : ℝ

/-- Componentwise vector addition. -/
def vadd (a b : Vec3) : Vec3 := ⟨a.x + b.x, a.y + b.y, a.z + b.z⟩

/-- Componentwise vector subtraction. -/
def vsub (a b : Vec3) : Vec3 := ⟨a.x - b.x, a.y - b.y, a.z - b.z⟩

/-- Scalar multiplication, THREE.Vector3.multiplyScalar. -/
def vscale (k : ℝ) (v : Vec3) : Vec3 := ⟨k * v.x, k * v.y, k * v.z⟩

/-- THREE.Vector3.crossVectors. -/
def cross (a b : Vec3) : Vec3 :=
  ⟨a.y * b.z - a.z * b.y, a.z * b.x - a.x * b.z, a.x * b.y - a.y * b.x⟩

/-- Euclidean length, THREE.Vector3.length. -/
def norm3 (v : Vec3) : ℝ := Real.sqrt (v.x ^ 2 + v.y ^ 2 + v.z ^ 2)

/-- THREE.Vector3.normalize divides by the length guarded against zero:
divideScalar uses the length when it is nonzero and 1 otherwise, so the
zero vector is left unchanged rather than producing NaN components. -/
def normalize (v : Vec3) : Vec3 :=
  vscale (1 / (if norm3 v = 0 then 1 else norm3 v)) v

/-- THREE.Vector3.applyAxisAngle: build the quaternion
(axis.x s, axis.y s, axis.z s, cos half) with s = sin half,
half = angle / 2, then apply it with Vector3.applyQuaternion. -/
def applyAxisAngle (v axis : Vec3) (angle : ℝ) : Vec3 :=
  let s := Real.sin (angle / 2)
  let qx := axis.x * s
  let qy := axis.y * s
  let qz := axis.z * s
  let qw := Real.cos (angle / 2)
  let tx := 2 * (qy * v.z - qz * v.y)
  let ty := 2 * (qz * v.x - qx * v.z)
  let tz := 2 * (qx * v.y - qy * v.x)
  ⟨v.x + qw * tx + qy * tz - qz * ty,
   v.y + qw * ty + qz * tx - qx * tz,
   v.z + qw * tz + qx * ty - qy * tx⟩

/-- THREE.MathUtils.lerp. -/
def lerp (a b t : ℝ) : ℝ := (1 - t) * a + t * b

/-- One tick of the progress controller in SceneContent.useFrame
(Experience.tsx): with diff = target - current, if the absolute
difference exceeds 0.001 then the current value moves by
diff times (2.0 times dt), otherwise it snaps to the target exactly. -/
def progressTick (target current dt : ℚ) : ℚ :=
  let diff := target - current
  if |diff| > 1/1000 then current + diff * (2 * dt) else target

/-- PositionData from types.ts, together with the per-instance random
attributes generated once in the Ornaments.tsx useMemo block. -/
structure PositionData where
  treePosition : Vec3
  scatterPosition : Vec3
  rotation : Vec3
  scale : ℝ
  speed : ℝ
  phase : ℝ

/-- The smoothstep easing used by Ornaments.useFrame and Ribbon.useFrame:
t = progress * progress * (3 - 2 * progress). -/
def smoothstepEase (progress : ℝ) : ℝ := progress * progress * (3 - 2 * progress)

/-- Instance position computed per tick by Ornaments.useFrame: lerp of
scatter and tree positions by the eased progress, plus the vertical
float term sin(time * speed + phase) * (1 - t) * 0.5. -/
def ornamentPosition (item : PositionData) (progress time : ℝ) : Vec3 :=
  let t := smoothstepEase progress
  let x := lerp item.scatterPosition.x item.treePosition.x t
  let y := lerp item.scatterPosition.y item.treePosition.y t
  let z := lerp item.scatterPosition.z item.treePosition.z t
  let floatFactor := 1 - t
  let floatY := Real.sin (time * item.speed + item.phase) * floatFactor * 0.5
  ⟨x, y + floatY, z⟩

/-- Instance Euler rotation computed per tick by Ornaments.useFrame:
base rotation seed plus the spin term time * speed * 0.2 * (1 - t) on
the first two axes. -/
def ornamentRotation (item : PositionData) (progress time : ℝ) : Vec3 :=
  let t := smoothstepEase progress
  let floatFactor := 1 - t
  let floatRot := time * item.speed * 0.2 * floatFactor
  ⟨item.rotation.x + floatRot, item.rotation.y + floatRot, item.rotation.z⟩

/-- The data from which Object3D.updateMatrix composes the instance
matrix written by setMatrixAt: position, Euler rotation and uniform
scale.  Two equal triples yield bit-identical matrices. -/
structure OrnamentTransform where
  position : Vec3
  rotationEuler : Vec3
  scale : ℝ

/-- The full per-instance transform written each tick. -/
def ornamentTransformAt (item : PositionData) (progress time : ℝ) : OrnamentTransform :=
  ⟨ornamentPosition item progress time, ornamentRotation item progress time, item.scale⟩

/-- The instance-matrix buffer update of Ornaments.useFrame: setMatrixAt
is called for every index below count on the existing buffer. -/
def ornamentUpdate (data : ℕ → PositionData) (count : ℕ) (progress time : ℝ)
    (buf : List OrnamentTransform) : List OrnamentTransform :=
  (List.range count).foldl
    (fun b i => b.set i (ornamentTransformAt (data i) progress time)) buf

/-- A concrete ornament instance: scatter position at the origin, tree
position (3,3,3), float speed 1 and float phase 0. -/
def itemC1 : PositionData :=
  ⟨⟨3, 3, 3⟩, ⟨0, 0, 0⟩, ⟨0, 0, 0⟩, 1, 1, 0⟩

/-- getScatterPosition from utils/math.ts, with the three Math.random()
draws passed explicitly: u drives theta = 2 pi u, v drives
phi = acos(2v - 1), and w drives the radial distance
r = cbrt(w) * radius (cube root modelled by rpow 1/3, which agrees with
Math.cbrt on the draw range [0,1)). -/
def getScatterPosition (radius u v w : ℝ) : Vec3 :=
  let theta := 2 * Real.pi * u
  let phi := Real.arccos (2 * v - 1)
  let r := w ^ ((1:ℝ)/3) * radius
  ⟨r * Real.sin phi * Real.cos theta,
   r * Real.sin phi * Real.sin theta,
   r * Real.cos phi⟩

/-- The golden angle pi(3 - sqrt 5) from getTreePosition. -/
def goldenAngle : ℝ := Real.pi * (3 - Real.sqrt 5)

/-- The spiral angle of point index in getTreePosition:
theta = index * goldenAngle. -/
def treeTheta (index : ℕ) : ℝ := (index : ℝ) * goldenAngle

/-- getTreePosition from utils/math.ts, with the Math.random() draw for
the radial thickness passed explicitly as w. -/
def getTreePosition (height baseRadius yOffset : ℝ) (index total : ℕ) (w : ℝ) : Vec3 :=
  let y := ((index : ℝ) / (total : ℝ)) * height
  let radiusAtHeight := (1 - y / height) * baseRadius
  let r := radiusAtHeight * Real.sqrt w
  let theta := treeTheta index
  ⟨r * Real.cos theta, y - yOffset, r * Real.sin theta⟩

/-- The inputs read by one Ribbon.useFrame tick: the fixed segment
count, width and phase offset, the two immutable centerline paths
precomputed by the useMemo block, and the per-tick progress and elapsed
time. -/
structure RibbonInput where
  segments : ℕ
  width : ℝ
  phaseOffset : ℝ
  scatterPath : ℕ → Vec3
  treePath : ℕ → Vec3
  progress : ℝ
  time : ℝ

/-- The eased progress t used by Ribbon.useFrame. -/
def ribbonEase (inp : RibbonInput) : ℝ := smoothstepEase inp.progress

/-- The floating noise added to the scatter point at path index i:
componentwise sinusoids scaled by floatFactor = 1 - t and 1.5. -/
def ribbonNoise (inp : RibbonInput) (i : ℕ) : Vec3 :=
  let floatFactor := 1 - ribbonEase inp
  ⟨Real.sin (inp.time * 0.5 + (i : ℝ) * 0.1 + inp.phaseOffset) * floatFactor * 1.5,
   Real.cos (inp.time * 0.3 + (i : ℝ) * 0.1) * floatFactor * 1.5,
   Real.sin (inp.time * 0.4 + (i : ℝ) * 0.05) * floatFactor * 1.5⟩

/-- The blended center point at path index i: lerp of the noised
scatter sample and the tree sample by the eased progress. -/
def centerAt (inp : RibbonInput) (i : ℕ) : Vec3 :=
  let t := ribbonEase inp
  let pS := inp.scatterPath i
  let pT := inp.treePath i
  let n := ribbonNoise inp i
  ⟨lerp (pS.x + n.x) pT.x t, lerp (pS.y + n.y) pT.y t, lerp (pS.z + n.z) pT.z t⟩

/-- The up reference (0,1,0) declared as binormal in Ribbon.useFrame. -/
def binormal : Vec3 := ⟨0, 1, 0⟩

/-- The tangent at path index i: forward difference of blended centers
normalized (with the guard), except at the final index where the code
sets the fixed fallback (0,1,0). -/
def tangentAt (inp : RibbonInput) (i : ℕ) : Vec3 :=
  let iNext := min (i + 1) inp.segments
  if i = inp.segments then ⟨0, 1, 0⟩
  else normalize (vsub (centerAt inp iNext) (centerAt inp i))

/-- The side normal at path index i: cross of the tangent with the up
reference, normalized (with the guard), then twisted around the tangent
by i * 0.1 * (1 - t) * 5 when that angle is nonzero. -/
def normalAt (inp : RibbonInput) (i : ℕ) : Vec3 :=
  let t := ribbonEase inp
  let tg := tangentAt inp i
  let n0 := normalize (cross tg binormal)
  let twistAngle := (i : ℝ) * 0.1 * (1 - t) * 5
  if twistAngle ≠ 0 then applyAxisAngle n0 tg twistAngle else n0

/-- The half-width side offset at path index i. -/
def sideOffsetAt (inp : RibbonInput) (i : ℕ) : Vec3 :=
  vscale (inp.width * 0.5) (normalAt inp i)

/-- The left vertex written at buffer slot 2i. -/
def vertexLeftAt (inp : RibbonInput) (i : ℕ) : Vec3 :=
  vadd (centerAt inp i) (sideOffsetAt inp i)

/-- The right vertex written at buffer slot 2i+1. -/
def vertexRightAt (inp : RibbonInput) (i : ℕ) : Vec3 :=
  vsub (centerAt inp i) (sideOffsetAt inp i)

/-- The position-buffer update of Ribbon.useFrame: for every path index
i in [0, segments], setXYZ writes the left vertex at slot 2i and the
right vertex at slot 2i+1 of the existing buffer. -/
def ribbonPositionsUpdate (inp : RibbonInput) (buf : List Vec3) : List Vec3 :=
  (List.range (inp.segments + 1)).foldl
    (fun b i => (b.set (2 * i) (vertexLeftAt inp i)).set (2 * i + 1) (vertexRightAt inp i))
    buf

/-- The index list built once in Ribbon.useLayoutEffect: for each
segment i below the segment count, two triangles
(2i, 2i+1, 2i+2) and (2i+1, 2i+3, 2i+2) are pushed. -/
def buildIndices (segments : ℕ) : List ℕ :=
  (List.range segments).foldl
    (fun acc i => acc ++ [2 * i, 2 * i + 1, 2 * i + 2, 2 * i + 1, 2 * i + 3, 2 * i + 2])
    []

/-- The geometry state of one ribbon: the index buffer and the vertex
position buffer. -/
structure RibbonGeometry where
  indices : List ℕ
  positions : List Vec3

/-- The geometry as set up by Ribbon.useLayoutEffect: a zero-filled
position buffer of (segments + 1) * 2 vertices and the fixed index
buffer. -/
def initRibbonGeometry (segments : ℕ) : RibbonGeometry :=
  ⟨buildIndices segments, List.replicate ((segments + 1) * 2) ⟨0, 0, 0⟩⟩

/-- One Ribbon.useFrame tick on the geometry: it rewrites the vertex
positions and does not touch the index buffer. -/
def ribbonTick (inp : RibbonInput) (geo : RibbonGeometry) : RibbonGeometry :=
  ⟨geo.indices, ribbonPositionsUpdate inp geo.positions⟩

/-- The list holding pairs f 0, g 0, f 1, g 1, ..., f (k-1), g (k-1):
the fully rewritten prefix of a ribbon position buffer. -/
def interleave {α : Type} : ℕ → (ℕ → α) → (ℕ → α) → List α
  | 0, _, _ => []
  | k + 1, f, g => interleave k f g ++ [f k, g k]

/-- A concrete degenerate ribbon input: one segment, both paths
constantly at the origin, progress 1 (so the noise amplitude is zero
and consecutive blended centers coincide), time 0. -/
def inpC5 : RibbonInput :=
  ⟨1, 1, 0, fun _ => ⟨0, 0, 0⟩, fun _ => ⟨0, 0, 0⟩, 1, 0⟩

/-- A second concrete ribbon input used with buffers of length 4: one
segment, both paths constantly at the origin, progress 0, time 0. -/
def inpC6 : RibbonInput :=
  ⟨1, 1, 0, fun _ => ⟨0, 0, 0⟩, fun _ => ⟨0, 0, 0⟩, 0, 0⟩

/-- A third concrete ribbon input, identical in content to inpC6, used
for the final-index claim. -/
def inpC10 : RibbonInput :=
  ⟨1, 1, 0, fun _ => ⟨0, 0, 0⟩, fun _ => ⟨0, 0, 0⟩, 0, 0⟩

/-- Concrete four-entry vertex buffer filled with the origin. -/
def bufC7a : List Vec3 := [⟨0, 0, 0⟩, ⟨0, 0, 0⟩, ⟨0, 0, 0⟩, ⟨0, 0, 0⟩]

/-- Concrete four-entry vertex buffer filled with (1,0,0). -/
def bufC7b : List Vec3 := [⟨1, 0, 0⟩, ⟨1, 0, 0⟩, ⟨1, 0, 0⟩, ⟨1, 0, 0⟩]

/-- Concrete one-entry instance-transform buffer. -/
def ornBufA : List OrnamentTransform := [⟨⟨0, 0, 0⟩, ⟨0, 0, 0⟩, 1⟩]

/-- A different concrete one-entry instance-transform buffer. -/
def ornBufB : List OrnamentTransform := [⟨⟨1, 1, 1⟩, ⟨0, 0, 0⟩, 2⟩]

/-- A four-component vector of reals, modelling GLSL vec4. -/
structure Vec4 where
  x : ℝ
  y : ℝ
  z : ℝ
  w : ℝ

/-- GLSL floor on a scalar. -/
def floorR (a : ℝ) : ℝ := (⌊a⌋ : ℤ)

/-- GLSL step(edge, a): 0 when a is below the edge, 1 otherwise. -/
def stepR (edge a : ℝ) : ℝ := if a < edge then 0 else 1

/-- mod289 on a vec3 from the Foliage shader. -/
def mod289v3 (v : Vec3) : Vec3 :=
  ⟨v.x - floorR (v.x * (1 / 289)) * 289,
   v.y - floorR (v.y * (1 / 289)) * 289,
   v.z - floorR (v.z * (1 / 289)) * 289⟩

/-- mod289 on a vec4 from the Foliage shader. -/
def mod289v4 (p : Vec4) : Vec4 :=
  ⟨p.x - floorR (p.x * (1 / 289)) * 289,
   p.y - floorR (p.y * (1 / 289)) * 289,
   p.z - floorR (p.z * (1 / 289)) * 289,
   p.w - floorR (p.w * (1 / 289)) * 289⟩

/-- permute from the Foliage shader: mod289(((x*34)+1)*x) componentwise. -/
def permute (p : Vec4) : Vec4 :=
  mod289v4 ⟨(p.x * 34 + 1) * p.x, (p.y * 34 + 1) * p.y,
            (p.z * 34 + 1) * p.z, (p.w * 34 + 1) * p.w⟩

/-- taylorInvSqrt from the Foliage shader. -/
def taylorInvSqrt (r : Vec4) : Vec4 :=
  ⟨1.79284291400159 - 0.85373472095314 * r.x,
   1.79284291400159 - 0.85373472095314 * r.y,
   1.79284291400159 - 0.85373472095314 * r.z,
   1.79284291400159 - 0.85373472095314 * r.w⟩

/-- Dot product of two vec3 values. -/
def dot3 (a b : Vec3) : ℝ := a.x * b.x + a.y * b.y + a.z * b.z

/-- Componentwise addition of a scalar to a vec4 (GLSL scalar + vector). -/
def addS4 (p : Vec4) (s : ℝ) : Vec4 := ⟨p.x + s, p.y + s, p.z + s, p.w + s⟩

/-- Componentwise addition of two vec4 values. -/
def add4 (a b : Vec4) : Vec4 := ⟨a.x + b.x, a.y + b.y, a.z + b.z, a.w + b.w⟩

/-- The simplex noise function snoise of the Foliage vertex shader,
transcribed componentwise with C = (1/6, 1/3) and D = (0, 1/2, 1, 2). -/
def snoise (v : Vec3) : ℝ :=
  let dvC := (v.x + v.y + v.z) * (1 / 3)
  let i0 : Vec3 := ⟨floorR (v.x + dvC), floorR (v.y + dvC), floorR (v.z + dvC)⟩
  let diC := (i0.x + i0.y + i0.z) * (1 / 6)
  let x0 : Vec3 := ⟨v.x - i0.x + diC, v.y - i0.y + diC, v.z - i0.z + diC⟩
  let g : Vec3 := ⟨stepR x0.y x0.x, stepR x0.z x0.y, stepR x0.x x0.z⟩
  let l : Vec3 := ⟨1 - g.x, 1 - g.y, 1 - g.z⟩
  let i1 : Vec3 := ⟨min g.x l.z, min g.y l.x, min g.z l.y⟩
  let i2 : Vec3 := ⟨max g.x l.z, max g.y l.x, max g.z l.y⟩
  let x1 : Vec3 := ⟨x0.x - i1.x + 1 / 6, x0.y - i1.y + 1 / 6, x0.z - i1.z + 1 / 6⟩
  let x2 : Vec3 := ⟨x0.x - i2.x + 1 / 3, x0.y - i2.y + 1 / 3, x0.z - i2.z + 1 / 3⟩
  let x3 : Vec3 := ⟨x0.x - 1 / 2, x0.y - 1 / 2, x0.z - 1 / 2⟩
  let im := mod289v3 i0
  let p := permute (add4 (addS4 (permute (add4 (addS4 (permute
    (addS4 ⟨0, i1.z, i2.z, 1⟩ im.z)) im.y) ⟨0, i1.y, i2.y, 1⟩)) im.x)
    ⟨0, i1.x, i2.x, 1⟩)
  let nc : ℝ := 0.142857142857
  let ns : Vec3 := ⟨nc * 2 - 0, nc * (1 / 2) - 1, nc * 1 - 0⟩
  let j : Vec4 := ⟨p.x - 49 * floorR (p.x * ns.z * ns.z),
                   p.y - 49 * floorR (p.y * ns.z * ns.z),
                   p.z - 49 * floorR (p.z * ns.z * ns.z),
                   p.w - 49 * floorR (p.w * ns.z * ns.z)⟩
  let xq : Vec4 := ⟨floorR (j.x * ns.z), floorR (j.y * ns.z),
                    floorR (j.z * ns.z), floorR (j.w * ns.z)⟩
  let yq : Vec4 := ⟨floorR (j.x - 7 * xq.x), floorR (j.y - 7 * xq.y),
                    floorR (j.z - 7 * xq.z), floorR (j.w - 7 * xq.w)⟩
  let xv : Vec4 := ⟨xq.x * ns.x + ns.y, xq.y * ns.x + ns.y,
                    xq.z * ns.x + ns.y, xq.w * ns.x + ns.y⟩
  let yv : Vec4 := ⟨yq.x * ns.x + ns.y, yq.y * ns.x + ns.y,
                    yq.z * ns.x + ns.y, yq.w * ns.x + ns.y⟩
  let h : Vec4 := ⟨1 - |xv.x| - |yv.x|, 1 - |xv.y| - |yv.y|,
                   1 - |xv.z| - |yv.z|, 1 - |xv.w| - |yv.w|⟩
  let b0 : Vec4 := ⟨xv.x, xv.y, yv.x, yv.y⟩
  let b1 : Vec4 := ⟨xv.z, xv.w, yv.z, yv.w⟩
  let s0 : Vec4 := ⟨floorR b0.x * 2 + 1, floorR b0.y * 2 + 1,
                    floorR b0.z * 2 + 1, floorR b0.w * 2 + 1⟩
  let s1 : Vec4 := ⟨floorR b1.x * 2 + 1, floorR b1.y * 2 + 1,
                    floorR b1.z * 2 + 1, floorR b1.w * 2 + 1⟩
  let sh : Vec4 := ⟨-stepR h.x 0, -stepR h.y 0, -stepR h.z 0, -stepR h.w 0⟩
  let a0 : Vec4 := ⟨b0.x + s0.x * sh.x, b0.z + s0.z * sh.x,
                    b0.y + s0.y * sh.y, b0.w + s0.w * sh.y⟩
  let a1 : Vec4 := ⟨b1.x + s1.x * sh.z, b1.z + s1.z * sh.z,
                    b1.y + s1.y * sh.w, b1.w + s1.w * sh.w⟩
  let p0 : Vec3 := ⟨a0.x, a0.y, h.x⟩
  let p1 : Vec3 := ⟨a0.z, a0.w, h.y⟩
  let p2 : Vec3 := ⟨a1.x, a1.y, h.z⟩
  let p3 : Vec3 := ⟨a1.z, a1.w, h.w⟩
  let nrm := taylorInvSqrt ⟨dot3 p0 p0, dot3 p1 p1, dot3 p2 p2, dot3 p3 p3⟩
  let q0 := vscale nrm.x p0
  let q1 := vscale nrm.y p1
  let q2 := vscale nrm.z p2
  let q3 := vscale nrm.w p3
  let m : Vec4 := ⟨max (0.6 - dot3 x0 x0) 0, max (0.6 - dot3 x1 x1) 0,
                   max (0.6 - dot3 x2 x2) 0, max (0.6 - dot3 x3 x3) 0⟩
  let mm : Vec4 := ⟨m.x * m.x, m.y * m.y, m.z * m.z, m.w * m.w⟩
  42 * (mm.x * mm.x * dot3 q0 x0 + mm.y * mm.y * dot3 q1 x1
    + mm.z * mm.z * dot3 q2 x2 + mm.w * mm.w * dot3 q3 x3)

/-- GLSL mix on scalars: x(1-a) + ya. -/
def glslMix (a b t : ℝ) : ℝ := a * (1 - t) + b * t

/-- GLSL mix on vec3, componentwise. -/
def glslMix3 (a b : Vec3) (t : ℝ) : Vec3 :=
  ⟨glslMix a.x b.x t, glslMix a.y b.y t, glslMix a.z b.z t⟩

/-- The vertex position computed in main() of the Foliage vertex
shader: pos = mix(aScatterPos, aTreePos, uProgress), then a vertical
displacement snoise(pos * 0.5 + uTime * 0.5) * mix(2.0, 0.1, uProgress)
* 0.5 is added to the y component. -/
def foliagePosition (aScatterPos aTreePos : Vec3) (uProgress uTime : ℝ) : Vec3 :=
  let pos := glslMix3 aScatterPos aTreePos uProgress
  let floatIntensity := glslMix 2 0.1 uProgress
  let noiseVal := snoise ⟨pos.x * 0.5 + uTime * 0.5, pos.y * 0.5 + uTime * 0.5,
                          pos.z * 0.5 + uTime * 0.5⟩
  vadd pos ⟨0, noiseVal * floatIntensity * 0.5, 0⟩

/-- The vertical noise displacement amplitude of the foliage shader as
a function of progress. -/
def foliageAmp (uProgress : ℝ) : ℝ := glslMix 2 0.1 uProgress * 0.5


theorem interleave_length {α : Type} (f g : ℕ → α) (k : ℕ) :
    (interleave k f g).length = 2 * k := by
  induction k with
  | zero => rfl
  | succ n ih =>
      simp only [interleave, List.length_append, List.length_cons, List.length_nil, ih]
      omega

theorem set_pair_append {α : Type} (L : List α) (c0 c1 f1 f2 : α) (R : List α)
    (m : ℕ) (hm : m = L.length) :
    ((L ++ c0 :: c1 :: R).set m f1).set (m + 1) f2 = L ++ f1 :: f2 :: R := by
  subst hm
  induction L with
  | nil => rfl
  | cons hd tl ih =>
      simp only [List.cons_append, List.length_cons]
      show hd :: ((tl ++ c0 :: c1 :: R).set tl.length f1).set (tl.length + 1) f2
          = hd :: (tl ++ f1 :: f2 :: R)
      rw [ih]

theorem set_single_append {α : Type} (L : List α) (c0 f1 : α) (R : List α)
    (m : ℕ) (hm : m = L.length) :
    (L ++ c0 :: R).set m f1 = L ++ f1 :: R := by
  subst hm
  induction L with
  | nil => rfl
  | cons hd tl ih =>
      simp only [List.cons_append, List.length_cons]
      show hd :: (tl ++ c0 :: R).set tl.length f1 = hd :: (tl ++ f1 :: R)
      rw [ih]

theorem foldl_set2_eq {α : Type} (f g : ℕ → α) :
    ∀ (k : ℕ) (buf : List α), 2 * k ≤ buf.length →
      (List.range k).foldl
          (fun b i => (b.set (2 * i) (f i)).set (2 * i + 1) (g i)) buf
        = interleave k f g ++ buf.drop (2 * k) := by
  intro k
  induction k with
  | zero =>
      intro buf _
      simp [interleave]
  | succ n ih =>
      intro buf h
      rw [List.range_succ, List.foldl_append]
      rw [ih buf (by omega)]
      simp only [List.foldl_cons, List.foldl_nil]
      have hlen : (interleave n f g).length = 2 * n := interleave_length f g n
      obtain ⟨c0, c1, R, hD⟩ :
          ∃ c0 c1 R, buf.drop (2 * n) = c0 :: c1 :: R := by
        rcases hbd : buf.drop (2 * n) with _ | ⟨d0, _ | ⟨d1, R⟩⟩
        · exfalso
          have := congrArg List.length hbd
          simp only [List.length_drop, List.length_nil] at this
          omega
        · exfalso
          have := congrArg List.length hbd
          simp only [List.length_drop, List.length_cons, List.length_nil] at this
          omega
        · exact ⟨d0, d1, R, rfl⟩
      have hR : buf.drop (2 * (n + 1)) = R := by
        have hdd : (buf.drop (2 * n)).drop 2 = R := by
          rw [hD]
          rfl
        rw [List.drop_drop] at hdd
        rw [show 2 * (n + 1) = 2 * n + 2 by omega]
        exact hdd
      rw [hD, hR]
      rw [set_pair_append (interleave n f g) c0 c1 (f n) (g n) R (2 * n) hlen.symm]
      simp [interleave, List.append_assoc]

theorem foldl_set1_eq {α : Type} (f : ℕ → α) :
    ∀ (k : ℕ) (buf : List α), k ≤ buf.length →
      (List.range k).foldl (fun b i => b.set i (f i)) buf
        = (List.range k).map f ++ buf.drop k := by
  intro k
  induction k with
  | zero =>
      intro buf _
      simp
  | succ n ih =>
      intro buf h
      rw [List.range_succ, List.foldl_append]
      rw [ih buf (by omega)]
      simp only [List.foldl_cons, List.foldl_nil]
      have hlen : ((List.range n).map f).length = n := by
        rw [List.length_map, List.length_range]
      obtain ⟨c0, R, hD⟩ : ∃ c0 R, buf.drop n = c0 :: R := by
        rcases hbd : buf.drop n with _ | ⟨d0, R⟩
        · exfalso
          have := congrArg List.length hbd
          simp only [List.length_drop, List.length_nil] at this
          omega
        · exact ⟨d0, R, rfl⟩
      have hR : buf.drop (n + 1) = R := by
        have hdd : (buf.drop n).drop 1 = R := by
          rw [hD]
          rfl
        rw [List.drop_drop] at hdd
        exact hdd
      rw [hD, hR]
      rw [set_single_append ((List.range n).map f) c0 (f n) R n hlen.symm]
      simp [List.append_assoc]

theorem ribbonPositionsUpdate_eq (inp : RibbonInput) (buf : List Vec3)
    (h : buf.length = 2 * (inp.segments + 1)) :
    ribbonPositionsUpdate inp buf
      = interleave (inp.segments + 1) (vertexLeftAt inp) (vertexRightAt inp) := by
  unfold ribbonPositionsUpdate
  rw [foldl_set2_eq (vertexLeftAt inp) (vertexRightAt inp) (inp.segments + 1) buf
    (by omega)]
  rw [show 2 * (inp.segments + 1) = buf.length from h.symm, List.drop_length,
    List.append_nil]

theorem ornamentUpdate_eq (data : ℕ → PositionData) (count : ℕ)
    (progress time : ℝ) (buf : List OrnamentTransform) (h : buf.length = count) :
    ornamentUpdate data count progress time buf
      = (List.range count).map (fun i => ornamentTransformAt (data i) progress time) := by
  unfold ornamentUpdate
  rw [foldl_set1_eq (fun i => ornamentTransformAt (data i) progress time) count buf
    (by omega)]
  rw [show count = buf.length from h.symm, List.drop_length, List.append_nil]

theorem buildIndices_succ (n : ℕ) :
    buildIndices (n + 1)
      = buildIndices n ++ [2 * n, 2 * n + 1, 2 * n + 2, 2 * n + 1, 2 * n + 3, 2 * n + 2] := by
  unfold buildIndices
  rw [List.range_succ, List.foldl_append]
  rfl

theorem buildIndices_length (n : ℕ) : (buildIndices n).length = 6 * n := by
  induction n with
  | zero => rfl
  | succ k ih =>
      rw [buildIndices_succ, List.length_append, ih]
      simp only [List.length_cons, List.length_nil]
      omega

theorem vscale_zero_vec (k : ℝ) : vscale k ⟨0, 0, 0⟩ = ⟨0, 0, 0⟩ := by
  simp [vscale]

theorem normalize_zero : normalize ⟨0, 0, 0⟩ = ⟨0, 0, 0⟩ := by
  unfold normalize
  exact vscale_zero_vec _

theorem vsub_self_vec (v : Vec3) : vsub v v = ⟨0, 0, 0⟩ := by
  simp [vsub]

theorem cross_zero_left (b : Vec3) : cross ⟨0, 0, 0⟩ b = ⟨0, 0, 0⟩ := by
  simp [cross]

theorem applyAxisAngle_zero_vec (axis : Vec3) (angle : ℝ) :
    applyAxisAngle ⟨0, 0, 0⟩ axis angle = ⟨0, 0, 0⟩ := by
  unfold applyAxisAngle
  dsimp only
  simp only [Vec3.mk.injEq]
  refine ⟨by ring, by ring, by ring⟩

theorem vadd_zero_right (v : Vec3) : vadd v ⟨0, 0, 0⟩ = v := by
  cases v
  simp [vadd]

theorem vsub_zero_right (v : Vec3) : vsub v ⟨0, 0, 0⟩ = v := by
  cases v
  simp [vsub]

theorem centerC5 (i : ℕ) : centerAt inpC5 i = ⟨0, 0, 0⟩ := by
  unfold centerAt ribbonEase smoothstepEase ribbonNoise inpC5 lerp
  dsimp only
  simp only [Vec3.mk.injEq]
  refine ⟨by ring, by ring, by ring⟩

/-- C2: counterexample — a single tick with dt = 1 (which is a legal
positive delta-time under the claim) starting from current = 0,
target = 1 overshoots to 2, past 1. -/
theorem progress_overshoot_ce : progressTick 1 0 1 = 2 ∧ (1:ℚ) < 2 := by
  constructor
  · norm_num [progressTick]
  · norm_num

/-- C2: amended — for ticks whose damping step 2 dt does not exceed 1,
starting anywhere in [0,1] with target 1, a tick strictly increases the
current value while it is below 1, never moves it past 1, and snaps it
to exactly 1 once the remaining difference is at most 0.001; and with
the target reversed to 0 the same tick strictly decreases the value
(once above the snap threshold) and changes it by no more than the
remaining distance to the target, so there is no discontinuous jump. -/
theorem progress_monotone_approach (current dt : ℚ)
    (hdt : 0 < dt) (hdt2 : 2 * dt ≤ 1) (h0 : 0 ≤ current) (h1 : current ≤ 1) :
    (current < 1 → current < progressTick 1 current dt) ∧
    progressTick 1 current dt ≤ 1 ∧
    (1 - current ≤ 1/1000 → progressTick 1 current dt = 1) ∧
    (1/1000 < current → progressTick 0 current dt < current) ∧
    |progressTick 0 current dt - current| ≤ |0 - current| := by
  have e1 : |(1:ℚ) - current| = 1 - current := abs_of_nonneg (by linarith)
  have e2 : |(0:ℚ) - current| = current := by
    rw [abs_of_nonpos (by linarith)]
    ring
  simp only [progressTick, e1, e2]
  split_ifs with hA hB hB
  · refine ⟨fun _ => ?_, ?_, fun hsnap => ?_, fun _ => ?_, ?_⟩
    · nlinarith
    · nlinarith
    · linarith
    · nlinarith
    · rw [abs_of_nonpos (by nlinarith)]
      nlinarith
  · refine ⟨fun _ => ?_, ?_, fun hsnap => ?_, fun hc => ?_, ?_⟩
    · nlinarith
    · nlinarith
    · linarith
    · exact absurd hc (by linarith)
    · exact le_of_eq e2
  · refine ⟨fun _ => ?_, le_refl 1, fun _ => rfl, fun _ => ?_, ?_⟩
    · linarith
    · nlinarith
    · rw [abs_of_nonpos (by nlinarith)]
      nlinarith
  · refine ⟨fun _ => ?_, le_refl 1, fun _ => rfl, fun hc => ?_, ?_⟩
    · linarith
    · exact absurd hc (by linarith)
    · exact le_of_eq e2

/-- C2: witness — the amended statement holds at current = 1/2, dt = 1/4. -/
theorem progress_monotone_approach_witness :
    (0:ℚ) < 1/4 ∧ 2 * (1/4:ℚ) ≤ 1 ∧ (0:ℚ) ≤ 1/2 ∧ (1/2:ℚ) ≤ 1 ∧
    (((1:ℚ)/2 < 1 → (1:ℚ)/2 < progressTick 1 (1/2) (1/4)) ∧
      progressTick 1 (1/2) (1/4) ≤ 1 ∧
      (1 - (1:ℚ)/2 ≤ 1/1000 → progressTick 1 (1/2) (1/4) = 1) ∧
      ((1:ℚ)/1000 < 1/2 → progressTick 0 (1/2) (1/4) < 1/2) ∧
      |progressTick 0 (1/2) (1/4) - 1/2| ≤ |0 - (1:ℚ)/2|) :=
  ⟨by norm_num, by norm_num, by norm_num, by norm_num,
    progress_monotone_approach (1/2) (1/4) (by norm_num) (by norm_num)
      (by norm_num) (by norm_num)⟩

/-- C3: counterexample — the tick from current = 1 (inside [0,1]) toward
target = 0 with dt = 1 yields -1, which leaves the interval [0,1]. -/
theorem progress_interval_ce : progressTick 0 1 1 = -1 ∧ (-1:ℚ) < 0 := by
  constructor
  · norm_num [progressTick]
  · norm_num

/-- C3: amended — the interval [0,1] is preserved by a progress tick for
either target in {0,1} provided the damping step 2 dt is at most 1. -/
theorem progress_interval_invariant (target current dt : ℚ)
    (htar : target = 0 ∨ target = 1) (hdt : 0 < dt) (hdt2 : 2 * dt ≤ 1)
    (h0 : 0 ≤ current) (h1 : current ≤ 1) :
    0 ≤ progressTick target current dt ∧ progressTick target current dt ≤ 1 := by
  simp only [progressTick]
  split_ifs with h
  · rcases htar with ht | ht <;> subst ht <;> constructor <;> nlinarith
  · rcases htar with ht | ht <;> subst ht <;> norm_num

/-- C3: witness — the invariant holds at target = 1, current = 1/2,
dt = 1/2. -/
theorem progress_interval_invariant_witness :
    ((1:ℚ) = 0 ∨ (1:ℚ) = 1) ∧ (0:ℚ) < 1/2 ∧ 2 * (1/2:ℚ) ≤ 1 ∧
    (0:ℚ) ≤ 1/2 ∧ (1/2:ℚ) ≤ 1 ∧
    (0 ≤ progressTick 1 (1/2) (1/2) ∧ progressTick 1 (1/2) (1/2) ≤ 1) :=
  ⟨Or.inr rfl, by norm_num, by norm_num, by norm_num, by norm_num,
    progress_interval_invariant 1 (1/2) (1/2) (Or.inr rfl) (by norm_num)
      (by norm_num) (by norm_num) (by norm_num)⟩

/-- C1: counterexample — at progress exactly 0 and elapsed time pi/2 the
computed position of the concrete instance is (0, 1/2, 0), a full 1/2
away in y from its scatter position (0,0,0), while at progress 1 the
deviation from the tree position is 0; so no small tolerance (such as
1/100) works for both endpoints at every elapsed time. -/
theorem ornament_scatter_deviation_ce :
    ornamentPosition itemC1 0 (Real.pi / 2) = ⟨0, 1/2, 0⟩ ∧
    ¬ (|(ornamentPosition itemC1 0 (Real.pi / 2)).y - itemC1.scatterPosition.y|
        ≤ 1/100) := by
  have hpos : ornamentPosition itemC1 0 (Real.pi / 2) = ⟨0, 1/2, 0⟩ := by
    unfold ornamentPosition smoothstepEase lerp itemC1
    simp only [mul_one, mul_zero, zero_mul, add_zero, zero_add, sub_zero]
    rw [Real.sin_pi_div_two]
    norm_num
  refine ⟨hpos, ?_⟩
  rw [hpos]
  show ¬ (|(1:ℝ)/2 - (0:ℝ)| ≤ 1/100)
  rw [sub_zero, abs_of_nonneg (by norm_num : (0:ℝ) ≤ 1/2)]
  norm_num

/-- C1: amended — for every instance and every elapsed time, at progress
exactly 1 the computed position equals the precomputed tree position
exactly; at progress exactly 0 the x and z coordinates equal the
scatter position exactly and the y coordinate deviates from it by at
most the float amplitude 1/2 (not by an arbitrarily small tolerance). -/
theorem ornament_endpoint_positions (item : PositionData) (time : ℝ) :
    ornamentPosition item 1 time = item.treePosition ∧
    (ornamentPosition item 0 time).x = item.scatterPosition.x ∧
    (ornamentPosition item 0 time).z = item.scatterPosition.z ∧
    |(ornamentPosition item 0 time).y - item.scatterPosition.y| ≤ 1/2 := by
  obtain ⟨⟨tx, ty, tz⟩, ⟨sx, sy, sz⟩, rot, sc, sp, ph⟩ := item
  have hkey1 : ornamentPosition ⟨⟨tx, ty, tz⟩, ⟨sx, sy, sz⟩, rot, sc, sp, ph⟩ 1 time
      = ⟨tx, ty, tz⟩ := by
    unfold ornamentPosition smoothstepEase lerp
    dsimp only
    simp only [Vec3.mk.injEq]
    refine ⟨by ring, by ring, by ring⟩
  have hkey0 : ornamentPosition ⟨⟨tx, ty, tz⟩, ⟨sx, sy, sz⟩, rot, sc, sp, ph⟩ 0 time
      = ⟨sx, sy + Real.sin (time * sp + ph) * (1/2), sz⟩ := by
    unfold ornamentPosition smoothstepEase lerp
    dsimp only
    simp only [Vec3.mk.injEq]
    refine ⟨by ring, by ring, by ring⟩
  refine ⟨hkey1, ?_, ?_, ?_⟩
  · rw [hkey0]
  · rw [hkey0]
  · rw [hkey0]
    dsimp only
    rw [add_sub_cancel_left, abs_mul,
      show |(1:ℝ)/2| = 1/2 from abs_of_nonneg (by norm_num)]
    nlinarith [Real.abs_sin_le_one (time * sp + ph)]

/-- C8: for every positive radius and every triple of draws in [0,1),
the scatter sample has Euclidean length at most the radius, because the
radial distance r = cbrt(w) * radius satisfies 0 <= r <= radius and the
spherical direction is a unit vector. -/
theorem scatter_within_radius (radius u v w : ℝ)
    (hr : 0 < radius) (_hu0 : 0 ≤ u) (_hu1 : u < 1) (_hv0 : 0 ≤ v) (_hv1 : v < 1)
    (hw0 : 0 ≤ w) (hw1 : w < 1) :
    norm3 (getScatterPosition radius u v w) ≤ radius := by
  unfold getScatterPosition norm3
  dsimp only
  have hcb0 : 0 ≤ w ^ ((1:ℝ)/3) := Real.rpow_nonneg hw0 _
  have hcb1 : w ^ ((1:ℝ)/3) ≤ 1 := Real.rpow_le_one hw0 hw1.le (by norm_num)
  have hr0 : 0 ≤ w ^ ((1:ℝ)/3) * radius := mul_nonneg hcb0 hr.le
  set r := w ^ ((1:ℝ)/3) * radius with hrdef
  set θ := 2 * Real.pi * u with hθ
  set φ := Real.arccos (2 * v - 1) with hφ
  have hsq : (r * Real.sin φ * Real.cos θ) ^ 2 + (r * Real.sin φ * Real.sin θ) ^ 2
      + (r * Real.cos φ) ^ 2 = r ^ 2 := by
    calc (r * Real.sin φ * Real.cos θ) ^ 2 + (r * Real.sin φ * Real.sin θ) ^ 2
        + (r * Real.cos φ) ^ 2
        = r ^ 2 * ((Real.sin φ) ^ 2 * ((Real.cos θ) ^ 2 + (Real.sin θ) ^ 2)
            + (Real.cos φ) ^ 2) := by ring
      _ = r ^ 2 * ((Real.sin φ) ^ 2 * 1 + (Real.cos φ) ^ 2) := by
          rw [Real.cos_sq_add_sin_sq]
      _ = r ^ 2 * 1 := by rw [mul_one, Real.sin_sq_add_cos_sq]
      _ = r ^ 2 := mul_one _
  rw [hsq, Real.sqrt_sq hr0]
  calc r = w ^ ((1:ℝ)/3) * radius := hrdef
    _ ≤ 1 * radius := mul_le_mul_of_nonneg_right hcb1 hr.le
    _ = radius := one_mul radius

/-- C8: witness — the length bound holds at radius 1 and draws (0,0,0). -/
theorem scatter_within_radius_witness :
    (0:ℝ) < 1 ∧ (0:ℝ) ≤ 0 ∧ (0:ℝ) < 1 ∧
    norm3 (getScatterPosition 1 0 0 0) ≤ 1 :=
  ⟨by norm_num, le_refl 0, by norm_num,
    scatter_within_radius 1 0 0 0 (by norm_num) (le_refl 0) (by norm_num)
      (le_refl 0) (by norm_num) (le_refl 0) (by norm_num)⟩

/-- C9: for height > 0 and total > 0, the y coordinate of the tree
spiral sample is ((index/total) * height) - yOffset, hence monotone
non-decreasing in the index (independently of the radial draw), and the
angle difference between consecutive indices is exactly the golden
angle, which lies in [0, 2 pi) and so equals itself modulo 2 pi. -/
theorem tree_spiral_monotone_golden (height baseRadius yOffset : ℝ)
    (i j total : ℕ) (w₁ w₂ : ℝ) (hh : 0 < height) (ht : 0 < total) (hij : i ≤ j) :
    (getTreePosition height baseRadius yOffset i total w₁).y
      ≤ (getTreePosition height baseRadius yOffset j total w₂).y ∧
    (getTreePosition height baseRadius yOffset i total w₁).y
      = ((i : ℝ) / (total : ℝ)) * height - yOffset ∧
    treeTheta (i + 1) - treeTheta i = goldenAngle ∧
    0 < goldenAngle ∧ goldenAngle < 2 * Real.pi := by
  have h5 : Real.sqrt 5 ^ 2 = 5 := Real.sq_sqrt (by norm_num)
  have h5n : 0 ≤ Real.sqrt 5 := Real.sqrt_nonneg 5
  have h5lt : Real.sqrt 5 < 3 := by nlinarith
  have h5gt : 1 < Real.sqrt 5 := by nlinarith
  refine ⟨?_, ?_, ?_, ?_, ?_⟩
  · unfold getTreePosition
    dsimp only
    have htr : (0:ℝ) < (total : ℝ) := by exact_mod_cast ht
    have hcast : (i : ℝ) ≤ (j : ℝ) := by exact_mod_cast hij
    have := mul_le_mul_of_nonneg_right
      ((div_le_div_iff_of_pos_right htr).mpr hcast) hh.le
    linarith
  · unfold getTreePosition
    dsimp only
  · unfold treeTheta
    push_cast
    ring
  · unfold goldenAngle
    have := Real.pi_pos
    nlinarith
  · unfold goldenAngle
    have := Real.pi_pos
    nlinarith

/-- C9: witness — the statement holds at height 1, baseRadius 1,
yOffset 0, indices 0 and 1, total 2, draws 0. -/
theorem tree_spiral_monotone_golden_witness :
    (0:ℝ) < 1 ∧ 0 < 2 ∧ 0 ≤ 1 ∧
    ((getTreePosition 1 1 0 0 2 0).y ≤ (getTreePosition 1 1 0 1 2 0).y ∧
      (getTreePosition 1 1 0 0 2 0).y = ((0 : ℝ) / (2 : ℝ)) * 1 - 0 ∧
      treeTheta (0 + 1) - treeTheta 0 = goldenAngle ∧
      0 < goldenAngle ∧ goldenAngle < 2 * Real.pi) :=
  ⟨by norm_num, by norm_num, by norm_num, by
    exact_mod_cast tree_spiral_monotone_golden 1 1 0 0 1 2 0 0 (by norm_num)
      (by norm_num) (by norm_num)⟩

/-- C5: counterexample — with both centerline paths constant at the
origin and progress snapped to 1 (noise amplitude zero), the blended
centers at indices 0 and 1 coincide; the tangent computed at the
interior index 0 is then the zero vector produced by the guarded
normalize, not the fixed default axis (0,1,0) the claim requires. -/
theorem tangent_zero_ce :
    centerAt inpC5 1 = centerAt inpC5 0 ∧
    tangentAt inpC5 0 = ⟨0, 0, 0⟩ ∧
    tangentAt inpC5 0 ≠ ⟨0, 1, 0⟩ := by
  have h1 := centerC5 1
  have h0 := centerC5 0
  have htan : tangentAt inpC5 0 = ⟨0, 0, 0⟩ := by
    unfold tangentAt
    dsimp only
    rw [if_neg (by norm_num [inpC5])]
    rw [show min (0 + 1) inpC5.segments = 1 by norm_num [inpC5]]
    rw [h1, h0, vsub_self_vec, normalize_zero]
  refine ⟨h1.trans h0.symm, htan, ?_⟩
  rw [htan]
  simp [Vec3.mk.injEq]

/-- C5: amended — at the final path index the tangent falls back to the
fixed up axis (0,1,0); at an interior index whose consecutive blended
centers coincide, the guarded normalization returns the zero vector —
not a fixed default axis — the side normal is then also zero and both
emitted vertices collapse onto the center point; in either case every
emitted component is a well-defined real number because the guard
divides by 1, never by 0, so no NaN reaches the vertex buffer. -/
theorem tangent_degenerate_behavior (inp : RibbonInput) (i : ℕ) :
    (i = inp.segments → tangentAt inp i = ⟨0, 1, 0⟩) ∧
    (i < inp.segments → centerAt inp (i + 1) = centerAt inp i →
      tangentAt inp i = ⟨0, 0, 0⟩ ∧ normalAt inp i = ⟨0, 0, 0⟩ ∧
      vertexLeftAt inp i = centerAt inp i ∧
      vertexRightAt inp i = centerAt inp i) := by
  constructor
  · intro hi
    unfold tangentAt
    dsimp only
    rw [if_pos hi]
  · intro hlt hc
    have htan : tangentAt inp i = ⟨0, 0, 0⟩ := by
      unfold tangentAt
      dsimp only
      rw [if_neg (Nat.ne_of_lt hlt)]
      rw [min_eq_left hlt]
      rw [hc, vsub_self_vec, normalize_zero]
    have hnor : normalAt inp i = ⟨0, 0, 0⟩ := by
      unfold normalAt
      dsimp only
      rw [htan, cross_zero_left, normalize_zero]
      split_ifs with htw
      · exact applyAxisAngle_zero_vec _ _
      · rfl
    refine ⟨htan, hnor, ?_, ?_⟩
    · unfold vertexLeftAt sideOffsetAt
      rw [hnor, vscale_zero_vec, vadd_zero_right]
    · unfold vertexRightAt sideOffsetAt
      rw [hnor, vscale_zero_vec, vsub_zero_right]

/-- C5: witness — the amended statement holds for the concrete degenerate
ribbon at interior index 0. -/
theorem tangent_degenerate_behavior_witness :
    0 < inpC5.segments ∧ centerAt inpC5 (0 + 1) = centerAt inpC5 0 ∧
    (tangentAt inpC5 0 = ⟨0, 0, 0⟩ ∧ normalAt inpC5 0 = ⟨0, 0, 0⟩ ∧
      vertexLeftAt inpC5 0 = centerAt inpC5 0 ∧
      vertexRightAt inpC5 0 = centerAt inpC5 0) := by
  have hc : centerAt inpC5 (0 + 1) = centerAt inpC5 0 :=
    (centerC5 1).trans (centerC5 0).symm
  have hseg : 0 < inpC5.segments := by norm_num [inpC5]
  exact ⟨hseg, hc, (tangent_degenerate_behavior inpC5 0).2 hseg hc⟩

/-- C6: for a ribbon with segment count N at least 1, the position
buffer set up at construction and the one produced by every per-tick
update both hold exactly 2(N+1) vertex entries, the index buffer built
once holds exactly 6N indices, and the per-tick update leaves the index
buffer untouched — all independent of progress and time. -/
theorem ribbon_buffer_sizes (N : ℕ) (inp : RibbonInput) (geo : RibbonGeometry)
    (_hN : 1 ≤ N) (hseg : inp.segments = N)
    (hlen : geo.positions.length = 2 * (N + 1)) :
    (initRibbonGeometry N).positions.length = 2 * (N + 1) ∧
    (initRibbonGeometry N).indices.length = 6 * N ∧
    (ribbonTick inp geo).indices = geo.indices ∧
    (ribbonTick inp geo).positions.length = 2 * (N + 1) := by
  refine ⟨?_, ?_, rfl, ?_⟩
  · show (List.replicate ((N + 1) * 2) (⟨0, 0, 0⟩ : Vec3)).length = 2 * (N + 1)
    rw [List.length_replicate]
    omega
  · show (buildIndices N).length = 6 * N
    exact buildIndices_length N
  · show (ribbonPositionsUpdate inp geo.positions).length = 2 * (N + 1)
    rw [ribbonPositionsUpdate_eq inp geo.positions (by rw [hseg]; exact hlen)]
    rw [interleave_length, hseg]

/-- C6: witness — the counts hold at N = 1 on the freshly initialized
geometry. -/
theorem ribbon_buffer_sizes_witness :
    1 ≤ 1 ∧ inpC6.segments = 1 ∧
    (initRibbonGeometry 1).positions.length = 2 * (1 + 1) ∧
    ((initRibbonGeometry 1).positions.length = 2 * (1 + 1) ∧
      (initRibbonGeometry 1).indices.length = 6 * 1 ∧
      (ribbonTick inpC6 (initRibbonGeometry 1)).indices
        = (initRibbonGeometry 1).indices ∧
      (ribbonTick inpC6 (initRibbonGeometry 1)).positions.length = 2 * (1 + 1)) := by
  have hlen : (initRibbonGeometry 1).positions.length = 2 * (1 + 1) := by
    show (List.replicate ((1 + 1) * 2) (⟨0, 0, 0⟩ : Vec3)).length = 2 * (1 + 1)
    rw [List.length_replicate]
  exact ⟨le_refl 1, rfl, hlen,
    ribbon_buffer_sizes 1 inpC6 (initRibbonGeometry 1) (le_refl 1) rfl hlen⟩

/-- C7: both per-tick recomputes are pure functions of (progress, time)
and the static dual-position data: on full-size buffers the result does
not depend on the previous buffer contents (every entry is overwritten,
no hidden accumulating state), and running the same update twice yields
the identical buffer. -/
theorem per_tick_recompute_pure (inp : RibbonInput) (b b' : List Vec3)
    (data : ℕ → PositionData) (count : ℕ) (progress time : ℝ)
    (c c' : List OrnamentTransform)
    (hb : b.length = 2 * (inp.segments + 1))
    (hb' : b'.length = 2 * (inp.segments + 1))
    (hc : c.length = count) (hc' : c'.length = count) :
    ribbonPositionsUpdate inp b = ribbonPositionsUpdate inp b' ∧
    ribbonPositionsUpdate inp (ribbonPositionsUpdate inp b)
      = ribbonPositionsUpdate inp b ∧
    ornamentUpdate data count progress time c
      = ornamentUpdate data count progress time c' ∧
    ornamentUpdate data count progress time
        (ornamentUpdate data count progress time c)
      = ornamentUpdate data count progress time c := by
  have hlen2 : (ribbonPositionsUpdate inp b).length = 2 * (inp.segments + 1) := by
    rw [ribbonPositionsUpdate_eq inp b hb, interleave_length]
  have holen : (ornamentUpdate data count progress time c).length = count := by
    rw [ornamentUpdate_eq data count progress time c hc, List.length_map,
      List.length_range]
  refine ⟨?_, ?_, ?_, ?_⟩
  · rw [ribbonPositionsUpdate_eq inp b hb, ribbonPositionsUpdate_eq inp b' hb']
  · rw [ribbonPositionsUpdate_eq inp (ribbonPositionsUpdate inp b) hlen2,
      ribbonPositionsUpdate_eq inp b hb]
  · rw [ornamentUpdate_eq data count progress time c hc,
      ornamentUpdate_eq data count progress time c' hc']
  · rw [ornamentUpdate_eq data count progress time
      (ornamentUpdate data count progress time c) holen,
      ornamentUpdate_eq data count progress time c hc]

/-- C7: witness — purity holds on the concrete one-segment ribbon with two
different four-entry buffers and on a one-instance ornament update with
two different transform buffers. -/
theorem per_tick_recompute_pure_witness :
    bufC7a.length = 2 * (inpC6.segments + 1) ∧
    bufC7b.length = 2 * (inpC6.segments + 1) ∧
    ornBufA.length = 1 ∧ ornBufB.length = 1 ∧
    (ribbonPositionsUpdate inpC6 bufC7a = ribbonPositionsUpdate inpC6 bufC7b ∧
      ribbonPositionsUpdate inpC6 (ribbonPositionsUpdate inpC6 bufC7a)
        = ribbonPositionsUpdate inpC6 bufC7a ∧
      ornamentUpdate (fun _ => itemC1) 1 0 0 ornBufA
        = ornamentUpdate (fun _ => itemC1) 1 0 0 ornBufB ∧
      ornamentUpdate (fun _ => itemC1) 1 0 0
          (ornamentUpdate (fun _ => itemC1) 1 0 0 ornBufA)
        = ornamentUpdate (fun _ => itemC1) 1 0 0 ornBufA) :=
  ⟨rfl, rfl, rfl, rfl,
    per_tick_recompute_pure inpC6 bufC7a bufC7b (fun _ => itemC1) 1 0 0
      ornBufA ornBufB rfl rfl rfl rfl⟩

/-- C10: at the final path index the fallback tangent (0,1,0) is
parallel to the up reference used in the cross product, so the computed
side vector is zero and both emitted vertices coincide with the blended
center — the strip has zero width at its far end — for every progress
in [0,1] and every time. -/
theorem ribbon_final_vertices_coincide (inp : RibbonInput)
    (_h0 : 0 ≤ inp.progress) (_h1 : inp.progress ≤ 1) :
    tangentAt inp inp.segments = ⟨0, 1, 0⟩ ∧
    normalAt inp inp.segments = ⟨0, 0, 0⟩ ∧
    vertexLeftAt inp inp.segments = centerAt inp inp.segments ∧
    vertexRightAt inp inp.segments = centerAt inp inp.segments := by
  have htan : tangentAt inp inp.segments = ⟨0, 1, 0⟩ := by
    unfold tangentAt
    dsimp only
    rw [if_pos rfl]
  have hcross : cross (⟨0, 1, 0⟩ : Vec3) binormal = ⟨0, 0, 0⟩ := by
    unfold binormal cross
    dsimp only
    simp only [Vec3.mk.injEq]
    norm_num
  have hnor : normalAt inp inp.segments = ⟨0, 0, 0⟩ := by
    unfold normalAt
    dsimp only
    rw [htan, hcross, normalize_zero]
    split_ifs with htw
    · exact applyAxisAngle_zero_vec _ _
    · rfl
  refine ⟨htan, hnor, ?_, ?_⟩
  · unfold vertexLeftAt sideOffsetAt
    rw [hnor, vscale_zero_vec, vadd_zero_right]
  · unfold vertexRightAt sideOffsetAt
    rw [hnor, vscale_zero_vec, vsub_zero_right]

/-- C10: witness — the zero-width far end holds on the concrete
one-segment ribbon at progress 0. -/
theorem ribbon_final_vertices_coincide_witness :
    0 ≤ inpC10.progress ∧ inpC10.progress ≤ 1 ∧
    (tangentAt inpC10 inpC10.segments = ⟨0, 1, 0⟩ ∧
      normalAt inpC10 inpC10.segments = ⟨0, 0, 0⟩ ∧
      vertexLeftAt inpC10 inpC10.segments = centerAt inpC10 inpC10.segments ∧
      vertexRightAt inpC10 inpC10.segments = centerAt inpC10 inpC10.segments) :=
  ⟨by norm_num [inpC10], by norm_num [inpC10],
    ribbon_final_vertices_coincide inpC10 (by norm_num [inpC10])
      (by norm_num [inpC10])⟩

/-- C4: at every progress and time the foliage vertex position is the
linear interpolation of the scatter and tree positions by the raw
(uneased) progress, displaced additively along y by the 3-D simplex
noise field sampled at pos * 0.5 + time * 0.5, with amplitude
foliageAmp; that amplitude is strictly decreasing in progress, equal to
1 at progress 0 and to the near-zero 1/20 at progress 1. -/
theorem foliage_blend_decomposition (aScatterPos aTreePos : Vec3)
    (uProgress uTime : ℝ) :
    foliagePosition aScatterPos aTreePos uProgress uTime
      = vadd (glslMix3 aScatterPos aTreePos uProgress)
          ⟨0,
            snoise ⟨(glslMix3 aScatterPos aTreePos uProgress).x * 0.5 + uTime * 0.5,
                    (glslMix3 aScatterPos aTreePos uProgress).y * 0.5 + uTime * 0.5,
                    (glslMix3 aScatterPos aTreePos uProgress).z * 0.5 + uTime * 0.5⟩
              * foliageAmp uProgress,
            0⟩ ∧
    StrictAnti foliageAmp ∧ foliageAmp 0 = 1 ∧ foliageAmp 1 = 1 / 20 := by
  refine ⟨?_, ?_, ?_, ?_⟩
  · unfold foliagePosition foliageAmp
    dsimp only
    rw [mul_assoc]
  · intro a b hab
    unfold foliageAmp glslMix
    nlinarith
  · unfold foliageAmp glslMix
    norm_num
  · unfold foliageAmp glslMix
    norm_num

end Shengdan
